import Mathlib

/-!
Verification of the Bildkompressor ingestion-and-compression core.

The Python source (`Bildkompressor.py`) is shallowly embedded below.
Python strings are modelled as lists of characters, the sqlite table
`images` as a list of rows together with the next auto-increment id,
and the managed storage directory as a list of (path, pixel-mode)
entries.  Exogenous I/O failures (a copy raising, an encode raising)
are modelled by explicit oracles, since whether `shutil.copy2` or
`Image.save` raises is not determined by the program state alone.
-/

set_option linter.unusedVariables false

namespace Bildkompressor

/-- Python strings (filenames, paths) are modelled as lists of characters. -/
abbrev Str := List Char

/-- The constant `IMAGES_DIR = 'stored_images'` of the source. -/
def IMAGES_DIR : Str := ("stored_images").data

/-- Models `os.path.join(d, f)` on POSIX for a directory name `d` without a
trailing separator and a relative name `f`: the separator is inserted between
the two parts. -/
def path_join (d f : Str) : Str := d ++ '/' :: f

/-- Models `os.path.basename`: the part of the path after the last separator. -/
def basename (s : Str) : Str := (s.reverse.takeWhile (fun c => c ≠ '/')).reverse

/-- Models `os.path.splitext` applied to a plain filename: split at the last
dot, except when every character before that dot is itself a dot (a name
consisting only of leading dots carries no extension). -/
def splitext (s : Str) : Str × Str :=
  match s.reverse.indexOf? '.' with
  | none => (s, [])
  | some k =>
    if (s.take (s.length - 1 - k)).all (fun c => c = '.') then (s, [])
    else (s.take (s.length - 1 - k), s.drop (s.length - 1 - k))

/-- Auxiliary decimal printer.  The first argument is fuel bounding the number
of recursive steps, which makes the recursion structural; `dec_repr` always
supplies enough fuel. -/
def decAux : Nat → Nat → Str
  | _, 0 => []
  | 0, _ => []
  | fuel + 1, n + 1 => decAux fuel ((n + 1) / 10) ++ [Nat.digitChar ((n + 1) % 10)]

/-- Models the decimal rendering of a natural number that Python string
interpolation produces for the collision counter in `dropEvent`. -/
def dec_repr (n : Nat) : Str := if n = 0 then ['0'] else decAux n n

/-- Reads a decimal digit string back into a number; left inverse of
`dec_repr`, used only to establish that `dec_repr` is injective. -/
def undec (l : Str) : Nat := l.foldl (fun a c => a * 10 + (c.toNat - 48)) 0

/-- The Pillow pixel modes relevant to images opened by `Image.open`. -/
inductive Mode
  | one
  | L
  | LA
  | P
  | RGB
  | RGBA
  | CMYK
  | YCbCr
  | I
  | I16
  | I16B
  | F
deriving DecidableEq

/-- Number of channels of a Pillow mode. -/
def Mode.channels : Mode → Nat
  | .LA => 2
  | .RGB => 3
  | .YCbCr => 3
  | .RGBA => 4
  | .CMYK => 4
  | _ => 1

/-- Whether a Pillow mode carries color information (palette images store
color in their palette). -/
def Mode.has_color : Mode → Bool
  | .P => true
  | .RGB => true
  | .RGBA => true
  | .CMYK => true
  | .YCbCr => true
  | _ => false

/-- Spec-side predicate, following the specification's words "carries
multi-channel color information": at least two channels and color-bearing. -/
def multi_channel_color (m : Mode) : Bool :=
  decide (2 ≤ m.channels) && m.has_color

/-- The bit-depth conversion chain of `compress_all_images`:
`if bit_depth == 1 ... elif == 8 ... elif == 16 ...`, with the 8-bit branch
`img.convert('L') if img.mode != 'RGB' and img.mode != 'RGBA' else
img.convert('RGB')` and the 16-bit branch keeping `I;16`/`I;16B` unchanged. -/
def convert_depth (bit_depth : Nat) (m : Mode) : Mode :=
  if bit_depth = 1 then Mode.one
  else if bit_depth = 8 then
    (if m ≠ Mode.RGB ∧ m ≠ Mode.RGBA then Mode.L else Mode.RGB)
  else if bit_depth = 16 then
    (if m = Mode.I16 ∨ m = Mode.I16B then m else Mode.I16)
  else m

/-- One file of the managed storage directory: its path and the pixel content
abstracted to its mode. -/
structure FsFile where
  path : Str
  mode : Mode
deriving DecidableEq

/-- The managed storage directory, as the list of files it holds. -/
abbrev Fs := List FsFile

/-- Models `os.path.exists` against the modelled directory contents. -/
def fs_exists (fs : Fs) (p : Str) : Bool := fs.any (fun f => f.path = p)

/-- Models opening the file at a path: the decoded mode, or `none` when no
such file exists (`Image.open` raises, i.e. decode fails). -/
def fs_lookup (fs : Fs) (p : Str) : Option Mode :=
  (fs.find? (fun f => f.path = p)).map (fun f => f.mode)

/-- Models `os.remove(p)` wrapped in `try ... except: pass`: removing a path
that is absent is a silent no-op. -/
def fs_remove (fs : Fs) (p : Str) : Fs := fs.filter (fun f => f.path ≠ p)

/-- Models writing an image file at a path (`shutil.copy2` target or
`img.save`), overwriting any file already there. -/
def fs_write (fs : Fs) (p : Str) (m : Mode) : Fs := ⟨p, m⟩ :: fs_remove fs p

/-- One row of the sqlite table `images`. -/
structure Row where
  id : Nat
  filename : Str
  filepath : Str
deriving DecidableEq

/-- The sqlite table `images`: its rows in insertion order plus the next
auto-increment id (sqlite row ids start at 1). -/
structure DB where
  next_id : Nat
  rows : List Row
deriving DecidableEq

/-- The `filepath` column of the table, in insertion order. -/
def DB.paths (db : DB) : List Str := db.rows.map (fun r => r.filepath)

/-- Models `ImageDatabase.add_image`: `INSERT` guarded by the `UNIQUE`
constraint on `filepath`; a violation raises `sqlite3.IntegrityError`, which
the method catches and turns into `None`, with no change to the table.  On
success it returns `cursor.lastrowid`. -/
def add_image (db : DB) (filename filepath : Str) : Option Nat × DB :=
  if filepath ∈ db.paths then (none, db)
  else (some db.next_id,
        ⟨db.next_id + 1, db.rows ++ [⟨db.next_id, filename, filepath⟩]⟩)

/-- Models `ImageDatabase.update_image_path`: `UPDATE images SET filepath=?
WHERE id=?` with no surrounding try/except.  sqlite enforces the `UNIQUE`
constraint on `filepath` on `UPDATE` as well: when the statement matches a
row (`id` is the `INTEGER PRIMARY KEY`, so at most one row matches on any
reachable store) and a different row already holds `new_filepath`, the
statement aborts with `sqlite3.IntegrityError` — modelled as `none` — and the
table is unchanged.  An `UPDATE` matching no row updates nothing and raises
nothing; otherwise the matched row's `filepath` is replaced. -/
def update_image_path (db : DB) (image_id : Nat) (new_filepath : Str) : Option DB :=
  if (db.rows.any (fun r => decide (r.id = image_id)))
      && (db.rows.any (fun r => decide (r.id ≠ image_id)
            && decide (r.filepath = new_filepath))) then
    none
  else
    some ⟨db.next_id,
      db.rows.map (fun r => if r.id = image_id then ⟨r.id, r.filename, new_filepath⟩ else r)⟩

/-- Models `ImageDatabase.delete_image`: `DELETE FROM images WHERE id=?`.
Like `UPDATE`, a `DELETE` matching no row raises nothing. -/
def delete_image (db : DB) (image_id : Nat) : DB :=
  ⟨db.next_id, db.rows.filter (fun r => r.id ≠ image_id)⟩

/-- Application-level view of `delete_image`: the method only issues SQL, so
the storage directory component of the state is not an input of the operation
and passes through unchanged. -/
def delete_image_app (st : DB × Fs) (image_id : Nat) : DB × Fs :=
  (delete_image st.1 image_id, st.2)

/-- Insertion step for sorting rows by descending id. -/
def insert_desc (r : Row) : List Row → List Row
  | [] => [r]
  | x :: xs => if x.id ≤ r.id then r :: x :: xs else x :: insert_desc r xs

/-- Models `ImageDatabase.get_all_images`: `SELECT id, filename, filepath
FROM images ORDER BY id DESC`. -/
def get_all_images (db : DB) : List Row := db.rows.foldr insert_desc []

/-- Combined application state: the record store and the storage directory. -/
structure AppState where
  db : DB
  files : Fs
deriving DecidableEq

/-- The candidate target path tried by the collision loop of `dropEvent` when
the counter holds `i`: `os.path.join(IMAGES_DIR, f"{base}_{i}{ext}")`. -/
def candidate (base ext : Str) (i : Nat) : Str :=
  path_join IMAGES_DIR (base ++ '_' :: (dec_repr i ++ ext))

/-- The `while os.path.exists(target_path)` loop of `dropEvent`.  The source
loop is unbounded; here `fuel` bounds the iterations so that the definition is
structural, and the theorems below show that `fuel = fs.length + 1` always
reaches a free name, so the bounded loop computes the same result as the
unbounded one. -/
def place_loop (fs : Fs) (base ext : Str) : Nat → Nat → Str → Str
  | 0, _, target => target
  | fuel + 1, i, target =>
    if fs_exists fs target then place_loop fs base ext fuel (i + 1) (candidate base ext i)
    else target

/-- Target-path selection of `dropEvent`: start from the bare filename joined
into `IMAGES_DIR` and, while the candidate exists, retry with suffixes
`_1`, `_2`, ... inserted between base and extension. -/
def place_target (fs : Fs) (filename : Str) : Str :=
  place_loop fs (splitext filename).1 (splitext filename).2 (fs.length + 1) 1
    (path_join IMAGES_DIR filename)

/-- The candidate paths in the order the source tries them: index `0` is the
unsuffixed name, index `i + 1` carries suffix `_(i+1)`. -/
def cand_seq (filename : Str) : Nat → Str
  | 0 => path_join IMAGES_DIR filename
  | i + 1 => candidate (splitext filename).1 (splitext filename).2 (i + 1)

/-- One candidate source file of a drop: its path, its pixel mode, and a flag
telling whether the attempt to copy it raises an I/O error (exogenous). -/
structure SrcFile where
  path : Str
  mode : Mode
  copy_fails : Bool
deriving DecidableEq

/-- Body of the per-file loop of `DragDropWidget.dropEvent`: pick a free
target path, `shutil.copy2` the file there, and on copy success insert a row;
a raised exception is caught by the surrounding `try`, and the truthiness
test `if self.db.add_image(...)` increments the counter only for a non-`None`,
non-zero row id. -/
def drop_one (st : AppState) (count : Nat) (f : SrcFile) : AppState × Nat :=
  let filename := basename f.path
  let target := place_target st.files filename
  if f.copy_fails then (st, count)
  else
    let files1 := fs_write st.files target f.mode
    let res := add_image st.db (basename target) target
    (⟨res.2, files1⟩,
     count + (match res.1 with
              | none => 0
              | some i => if i ≠ 0 then 1 else 0))

/-- The whole `dropEvent` batch over the accepted files, starting from
`added_count = 0`. -/
def dropEvent (st : AppState) (srcs : List SrcFile) : AppState × Nat :=
  srcs.foldl (fun acc f => drop_one acc.1 acc.2 f) (st, 0)

/-- Per-file error reasons surfaced by `dropEvent`: in the modelled loop the
only raising operation is `shutil.copy2`. -/
inductive IngestError
  | CopyFailed
deriving DecidableEq

/-- The `dropEvent` batch together with the per-file error reports that its
`except Exception` branch surfaces (`QMessageBox.warning` with
`Could not add image {filename}: ...`): the state and the counter evolve
exactly as in `dropEvent`, and each file whose copy raises contributes one
report, after which the loop continues with the next file. -/
def dropEvent_report (st : AppState) (srcs : List SrcFile) :
    AppState × Nat × List (Str × IngestError) :=
  srcs.foldl
    (fun acc f =>
      ((drop_one acc.1 acc.2.1 f).1, (drop_one acc.1 acc.2.1 f).2,
       acc.2.2
         ++ (if f.copy_fails then [(basename f.path, IngestError.CopyFailed)] else [])))
    (st, 0, [])

/-- The output formats offered by the dialog. -/
inductive Fmt
  | JPEG
  | PNG
  | WEBP
  | BMP
deriving DecidableEq

/-- The compression settings collected by `CompressionDialog.get_values`. -/
structure Options where
  quality : Nat
  bit_depth : Nat
  format : Fmt
deriving DecidableEq

/-- Models `options['format'].lower()`, the extension of the output name. -/
def Fmt.lower : Fmt → Str
  | .JPEG => ("jpeg").data
  | .PNG => ("png").data
  | .WEBP => ("webp").data
  | .BMP => ("bmp").data

/-- The keyword arguments passed to `img.save` (`save_kwargs` in the source):
an optional `quality`, the `optimize` flag, and an optional `method`. -/
structure SaveKwargs where
  quality : Option Nat := none
  optimize : Bool := false
  method : Option Nat := none
deriving DecidableEq

/-- The `save_kwargs` computation of `compress_all_images`: JPEG sets
`quality` and `optimize=True`, WEBP sets `quality` and `method=6`, and the
other formats pass no keyword arguments. -/
def save_kwargs_for (format : Fmt) (quality : Nat) : SaveKwargs :=
  match format with
  | Fmt.JPEG => { quality := some quality, optimize := true }
  | Fmt.WEBP => { quality := some quality, method := some 6 }
  | _ => {}

/-- Per-item failure reasons of a compression batch: `Image.open` raising,
`img.save` raising, or the `UPDATE` raising `sqlite3.IntegrityError`; each is
caught by the per-record `except Exception` handler. -/
inductive FailReason
  | DecodeFailed
  | EncodeFailed
  | UpdateFailed
deriving DecidableEq

/-- The output path computed by `compress_all_images` for a record whose
display name is `filename`: `base = os.path.splitext(filename)[0]`, then
`os.path.join(IMAGES_DIR, f"{base}_compressed.{ext}")` with `ext` the
lowercased format name. -/
def new_filepath_for (format : Fmt) (filename : Str) : Str :=
  path_join IMAGES_DIR ((splitext filename).1 ++ ("_compressed.").data ++ format.lower)

/-- Body of the per-record loop of `MainWindow.compress_all_images`: decode,
convert bit depth, compute the save parameters and the output path, encode,
and — when the new path differs from the old one — best-effort delete the
original file and then attempt the `UPDATE`.  Any raised exception is caught
by the per-record handler: a decode failure, an encode failure
(`encode_fails` is the exogenous oracle for `img.save` raising), or
`sqlite3.IntegrityError` from the `UPDATE`; in the last case the file writes
have already happened (the save and the remove precede the update in the
source) but the table is unchanged. -/
def compress_one (opts : Options) (encode_fails : Nat → Bool) (st : AppState) (r : Row) :
    AppState × Option (Nat × FailReason) :=
  match fs_lookup st.files r.filepath with
  | none => (st, some (r.id, FailReason.DecodeFailed))
  | some m =>
    let m2 := convert_depth opts.bit_depth m
    let kwargs := save_kwargs_for opts.format opts.quality
    let new_filepath := new_filepath_for opts.format r.filename
    if encode_fails r.id then (st, some (r.id, FailReason.EncodeFailed))
    else
      let files1 := fs_write st.files new_filepath m2
      if r.filepath ≠ new_filepath then
        let files2 := fs_remove files1 r.filepath
        match update_image_path st.db r.id new_filepath with
        | some db2 => (⟨db2, files2⟩, none)
        | none => (⟨st.db, files2⟩, some (r.id, FailReason.UpdateFailed))
      else (⟨st.db, files1⟩, none)

/-- The batch result of `compress_all_images`: the total it reports
(`Completed compressing {total} image(s)`), the per-record failures it
surfaced as warnings, and the final state. -/
structure CompressionResult where
  attempted : Nat
  failures : List (Nat × FailReason)
  state : AppState
deriving DecidableEq

/-- Models `MainWindow.compress_all_images`: snapshot the record list once
(`images = self.db.get_all_images()`, ordered by id descending), then run the
per-record body over the snapshot, collecting failures, and report
`total = len(images)`. -/
def compress_all_images (opts : Options) (encode_fails : Nat → Bool) (st : AppState) :
    CompressionResult :=
  let images := get_all_images st.db
  let final := images.foldl
    (fun (acc : AppState × List (Nat × FailReason)) r =>
      let res := compress_one opts encode_fails acc.1 r
      (res.1, match res.2 with
              | none => acc.2
              | some fl => acc.2 ++ [fl]))
    (st, [])
  ⟨images.length, final.2, final.1⟩

/-! ### Helper lemmas: decimal rendering, candidate names, the collision loop -/

theorem digitChar_sub48 : ∀ r < 10, (Nat.digitChar r).toNat - 48 = r := by decide

theorem undec_append_digit (l : Str) (c : Char) :
    undec (l ++ [c]) = undec l * 10 + (c.toNat - 48) := by
  simp [undec, List.foldl_append]

theorem undec_decAux : ∀ n fuel : Nat, n ≤ fuel → undec (decAux fuel n) = n := by
  intro n
  induction n using Nat.strong_induction_on with
  | _ n ih =>
    intro fuel hle
    cases n with
    | zero => simp [decAux, undec]
    | succ m =>
      cases fuel with
      | zero => omega
      | succ f =>
        have hdiv : (m + 1) / 10 < m + 1 := Nat.div_lt_self (Nat.succ_pos m) (by omega)
        have h2 : undec (decAux f ((m + 1) / 10)) = (m + 1) / 10 :=
          ih ((m + 1) / 10) hdiv f (by omega)
        have hmod : (m + 1) % 10 < 10 := Nat.mod_lt _ (by omega)
        have hstep : decAux (f + 1) (m + 1)
            = decAux f ((m + 1) / 10) ++ [Nat.digitChar ((m + 1) % 10)] := rfl
        rw [hstep, undec_append_digit, h2, digitChar_sub48 _ hmod]
        omega

theorem undec_dec_repr (n : Nat) : undec (dec_repr n) = n := by
  by_cases h : n = 0
  · subst h; decide
  · simp only [dec_repr, if_neg h]
    exact undec_decAux n n (Nat.le_refl n)

theorem dec_repr_inj {a b : Nat} (h : dec_repr a = dec_repr b) : a = b := by
  have ha := undec_dec_repr a
  rw [h, undec_dec_repr b] at ha
  omega

theorem splitext_append (s : Str) : (splitext s).1 ++ (splitext s).2 = s := by
  unfold splitext
  cases s.reverse.indexOf? '.' with
  | none => simp
  | some k =>
    by_cases h : ((List.take (s.length - 1 - k) s).all fun c => decide (c = '.')) = true
    · simp only [if_pos h]
      exact List.append_nil s
    · simp only [if_neg h]
      exact List.take_append_drop _ s

theorem path_join_inj (d a b : Str) (h : path_join d a = path_join d b) : a = b := by
  unfold path_join at h
  have h2 := List.append_cancel_left h
  injection h2

theorem cand_seq_inj (filename : Str) : Function.Injective (cand_seq filename) := by
  intro a b h
  have hsp := congrArg List.length (splitext_append filename)
  simp only [cand_seq, candidate] at h
  cases a with
  | zero =>
    cases b with
    | zero => rfl
    | succ j =>
      exfalso
      have h1 := path_join_inj _ _ _ h
      have h2 := congrArg List.length h1
      simp [List.length_append] at h2 hsp
      omega
  | succ i =>
    cases b with
    | zero =>
      exfalso
      have h1 := path_join_inj _ _ _ h.symm
      have h2 := congrArg List.length h1
      simp [List.length_append] at h2 hsp
      omega
    | succ j =>
      have h1 := path_join_inj _ _ _ h
      have h2 := List.append_cancel_left h1
      injection h2 with _ h3
      have h4 := List.append_cancel_right h3
      have := dec_repr_inj h4
      omega

theorem cand_free_exists (fs : Fs) (filename : Str) :
    ∃ d, d < fs.length + 1 ∧ fs_exists fs (cand_seq filename d) = false := by
  by_contra hcon
  push_neg at hcon
  have hall : ∀ d, d < fs.length + 1 →
      cand_seq filename d ∈ fs.map (fun f => f.path) := by
    intro d hd
    have hne := hcon d hd
    have hb : fs_exists fs (cand_seq filename d) = true := by
      cases hx : fs_exists fs (cand_seq filename d)
      · exact absurd hx hne
      · rfl
    simp only [fs_exists, List.any_eq_true, decide_eq_true_eq] at hb
    obtain ⟨f, hf, hfp⟩ := hb
    exact List.mem_map.mpr ⟨f, hf, hfp⟩
  have hnodup : ((List.range (fs.length + 1)).map (cand_seq filename)).Nodup :=
    List.Nodup.map (cand_seq_inj filename) (List.nodup_range _)
  have hsub : (List.range (fs.length + 1)).map (cand_seq filename)
      ⊆ fs.map (fun f => f.path) := by
    intro x hx
    simp only [List.mem_map, List.mem_range] at hx
    obtain ⟨d, hd, rfl⟩ := hx
    exact hall d hd
  have hlen := List.Subperm.length_le (List.Nodup.subperm hnodup hsub)
  simp [List.length_map, List.length_range] at hlen

theorem place_loop_spec (fs : Fs) (filename : Str) :
    ∀ fuel j : Nat,
      (∃ d, d < fuel ∧ fs_exists fs (cand_seq filename (j + d)) = false) →
      ∃ k, j ≤ k ∧
        place_loop fs (splitext filename).1 (splitext filename).2 fuel (j + 1)
            (cand_seq filename j)
          = cand_seq filename k ∧
        fs_exists fs (cand_seq filename k) = false ∧
        ∀ l, j ≤ l → l < k → fs_exists fs (cand_seq filename l) = true := by
  intro fuel
  induction fuel with
  | zero =>
    intro j hex
    obtain ⟨d, hd, _⟩ := hex
    omega
  | succ f ih =>
    intro j hex
    by_cases hj : fs_exists fs (cand_seq filename j) = true
    · have hstep : place_loop fs (splitext filename).1 (splitext filename).2 (f + 1) (j + 1)
          (cand_seq filename j)
          = place_loop fs (splitext filename).1 (splitext filename).2 f (j + 1 + 1)
            (cand_seq filename (j + 1)) := by
        simp only [place_loop]
        rw [if_pos hj]
        rfl
      obtain ⟨d, hd, hfree⟩ := hex
      have hdpos : d ≠ 0 := by
        intro h0
        subst h0
        simp only [Nat.add_zero] at hfree
        rw [hj] at hfree
        exact Bool.noConfusion hfree
      obtain ⟨d2, rfl⟩ : ∃ d2, d = d2 + 1 := ⟨d - 1, by omega⟩
      have hex2 : ∃ e, e < f ∧ fs_exists fs (cand_seq filename ((j + 1) + e)) = false := by
        refine ⟨d2, by omega, ?_⟩
        have harith : (j + 1) + d2 = j + (d2 + 1) := by omega
        rw [harith]
        exact hfree
      obtain ⟨k, hk1, hk2, hk3, hk4⟩ := ih (j + 1) hex2
      refine ⟨k, by omega, ?_, hk3, ?_⟩
      · rw [hstep]; exact hk2
      · intro l hl1 hl2
        by_cases hlj : l = j
        · subst hlj; exact hj
        · exact hk4 l (by omega) hl2
    · have hfalse : fs_exists fs (cand_seq filename j) = false := by
        cases hx : fs_exists fs (cand_seq filename j)
        · rfl
        · exact absurd hx hj
      refine ⟨j, Nat.le_refl j, ?_, hfalse, ?_⟩
      · have hnc : ¬ (fs_exists fs (cand_seq filename j) = true) := by simp [hfalse]
        simp only [place_loop]
        rw [if_neg hnc]
      · intro l hl1 hl2; omega

theorem place_target_spec (fs : Fs) (filename : Str) :
    ∃ k, place_target fs filename = cand_seq filename k ∧
      fs_exists fs (cand_seq filename k) = false ∧
      ∀ l, l < k → fs_exists fs (cand_seq filename l) = true := by
  obtain ⟨d, hd, hfree⟩ := cand_free_exists fs filename
  have hex : ∃ d2, d2 < fs.length + 1 ∧ fs_exists fs (cand_seq filename (0 + d2)) = false :=
    ⟨d, hd, by simpa using hfree⟩
  obtain ⟨k, _, hk2, hk3, hk4⟩ := place_loop_spec fs filename (fs.length + 1) 0 hex
  refine ⟨k, ?_, hk3, fun l hl => hk4 l (Nat.zero_le l) hl⟩
  unfold place_target
  exact hk2

theorem place_target_free (fs : Fs) (filename : Str) :
    fs_exists fs (place_target fs filename) = false := by
  obtain ⟨k, hk1, hk2, _⟩ := place_target_spec fs filename
  rw [hk1]
  exact hk2

theorem fs_remove_of_not_exists (fs : Fs) (p : Str) (h : fs_exists fs p = false) :
    fs_remove fs p = fs := by
  apply List.filter_eq_self.mpr
  intro f hf
  simp only [fs_exists, List.any_eq_false, decide_eq_true_eq] at h
  simpa using h f hf

theorem fs_exists_remove_self (fs : Fs) (p : Str) :
    fs_exists (fs_remove fs p) p = false := by
  simp only [fs_exists, fs_remove, List.any_eq_false, decide_eq_true_eq]
  intro f hf
  have := List.of_mem_filter hf
  simpa using this

theorem drop_one_preserves_files (st : AppState) (count : Nat) (f : SrcFile) :
    ∀ x ∈ st.files, x ∈ (drop_one st count f).1.files := by
  intro x hx
  unfold drop_one
  by_cases hc : f.copy_fails = true
  · simp only [hc, if_pos]
    exact hx
  · have hc2 : ¬ (f.copy_fails = true) := hc
    simp only [if_neg hc2, fs_write,
      fs_remove_of_not_exists _ _ (place_target_free st.files (basename f.path))]
    exact List.mem_cons_of_mem _ hx

theorem drop_one_spec (st : AppState) (count : Nat) (f : SrcFile)
    (h1 : 1 ≤ st.db.next_id) (h2 : st.db.paths.Nodup) :
    1 ≤ (drop_one st count f).1.db.next_id ∧
    (drop_one st count f).1.db.paths.Nodup ∧
    (drop_one st count f).1.db.rows.length + count
      = st.db.rows.length + (drop_one st count f).2 := by
  unfold drop_one
  by_cases hc : f.copy_fails = true
  · simp only [hc, if_pos]
    exact ⟨h1, h2, by trivial⟩
  · simp only [if_neg hc]
    by_cases hdup : place_target st.files (basename f.path) ∈ st.db.paths
    · simp only [add_image, if_pos hdup]
      exact ⟨h1, h2, by trivial⟩
    · simp only [add_image, if_neg hdup]
      have hnz : st.db.next_id ≠ 0 := by omega
      refine ⟨by simp, ?_, ?_⟩
      · have hpaths : (DB.mk (st.db.next_id + 1)
            (st.db.rows ++ [⟨st.db.next_id, basename (place_target st.files (basename f.path)),
              place_target st.files (basename f.path)⟩])).paths
            = st.db.paths ++ [place_target st.files (basename f.path)] := by
          simp [DB.paths]
        simp only [hpaths]
        have hperm := List.perm_append_singleton
          (place_target st.files (basename f.path)) st.db.paths
        exact (List.Perm.nodup_iff hperm).mpr (List.nodup_cons.mpr ⟨hdup, h2⟩)
      · simp [hnz]
        omega

theorem drop_fold_spec (srcs : List SrcFile) :
    ∀ (st : AppState) (count : Nat),
      1 ≤ st.db.next_id → st.db.paths.Nodup →
      1 ≤ (srcs.foldl (fun acc f => drop_one acc.1 acc.2 f) (st, count)).1.db.next_id ∧
      (srcs.foldl (fun acc f => drop_one acc.1 acc.2 f) (st, count)).1.db.paths.Nodup ∧
      (srcs.foldl (fun acc f => drop_one acc.1 acc.2 f) (st, count)).1.db.rows.length + count
        = st.db.rows.length
          + (srcs.foldl (fun acc f => drop_one acc.1 acc.2 f) (st, count)).2 := by
  induction srcs with
  | nil =>
    intro st count h1 h2
    exact ⟨h1, h2, rfl⟩
  | cons f rest ih =>
    intro st count h1 h2
    simp only [List.foldl_cons]
    obtain ⟨g1, g2, g3⟩ := drop_one_spec st count f h1 h2
    obtain ⟨k1, k2, k3⟩ := ih (drop_one st count f).1 (drop_one st count f).2 g1 g2
    rw [Prod.mk.eta] at k1 k2 k3
    exact ⟨k1, k2, by omega⟩

theorem insert_desc_length (r : Row) (l : List Row) :
    (insert_desc r l).length = l.length + 1 := by
  induction l with
  | nil => rfl
  | cons x xs ih =>
    simp only [insert_desc]
    split
    · simp
    · simp [ih]

theorem get_all_images_length (db : DB) : (get_all_images db).length = db.rows.length := by
  unfold get_all_images
  induction db.rows with
  | nil => rfl
  | cons x xs ih => simp [List.foldr_cons, insert_desc_length, ih]

theorem drop_one_copy_fails (st : AppState) (count : Nat) (f : SrcFile)
    (hc : f.copy_fails = true) : drop_one st count f = (st, count) := by
  simp [drop_one, hc]

theorem dropEvent_report_fold (srcs : List SrcFile) :
    ∀ (st : AppState) (count : Nat) (errs : List (Str × IngestError)),
      (srcs.foldl
        (fun acc (f : SrcFile) =>
          ((drop_one acc.1 acc.2.1 f).1, (drop_one acc.1 acc.2.1 f).2,
           acc.2.2
             ++ (if f.copy_fails then [(basename f.path, IngestError.CopyFailed)] else [])))
        (st, count, errs)).1
        = (srcs.foldl (fun acc f => drop_one acc.1 acc.2 f) (st, count)).1 ∧
      (srcs.foldl
        (fun acc (f : SrcFile) =>
          ((drop_one acc.1 acc.2.1 f).1, (drop_one acc.1 acc.2.1 f).2,
           acc.2.2
             ++ (if f.copy_fails then [(basename f.path, IngestError.CopyFailed)] else [])))
        (st, count, errs)).2.1
        = (srcs.foldl (fun acc f => drop_one acc.1 acc.2 f) (st, count)).2 ∧
      (srcs.foldl
        (fun acc (f : SrcFile) =>
          ((drop_one acc.1 acc.2.1 f).1, (drop_one acc.1 acc.2.1 f).2,
           acc.2.2
             ++ (if f.copy_fails then [(basename f.path, IngestError.CopyFailed)] else [])))
        (st, count, errs)).2.2
        = errs ++ (srcs.filter (fun f => f.copy_fails)).map
            (fun f => (basename f.path, IngestError.CopyFailed)) := by
  induction srcs with
  | nil =>
    intro st count errs
    exact ⟨rfl, rfl, by simp⟩
  | cons f rest ih =>
    intro st count errs
    simp only [List.foldl_cons, List.filter_cons]
    by_cases hc : f.copy_fails = true
    · obtain ⟨k1, k2, k3⟩ := ih (drop_one st count f).1 (drop_one st count f).2
        (errs ++ [(basename f.path, IngestError.CopyFailed)])
      rw [Prod.mk.eta] at k1 k2
      simp only [hc, if_pos]
      exact ⟨k1, k2, by rw [k3]; simp⟩
    · obtain ⟨k1, k2, k3⟩ := ih (drop_one st count f).1 (drop_one st count f).2 errs
      rw [Prod.mk.eta] at k1 k2
      simp only [if_neg hc, List.append_nil]
      exact ⟨k1, k2, k3⟩

theorem fs_lookup_after_swap (fs : Fs) (old_p new_p : Str) (m : Mode)
    (hne : old_p ≠ new_p) :
    fs_lookup (fs_remove (fs_write fs new_p m) old_p) new_p = some m := by
  simp only [fs_lookup, fs_remove, fs_write, List.filter_cons]
  have hc : (decide ((FsFile.mk new_p m).path ≠ old_p)) = true := by
    simp only [decide_eq_true_eq]
    intro h
    exact hne h.symm
  rw [hc]
  simp [List.find?]

theorem update_rows_nodup (i : Nat) (p : Str) :
    ∀ rows : List Row, (rows.map (fun r => r.id)).Nodup →
      (rows.map (fun r => r.filepath)).Nodup →
      (∀ r ∈ rows, r.id ≠ i → r.filepath ≠ p) →
      ((rows.map (fun r => if r.id = i then (⟨r.id, r.filename, p⟩ : Row) else r)).map
        (fun r => r.filepath)).Nodup := by
  intro rows
  induction rows with
  | nil =>
    intro _ _ _
    simp
  | cons x xs ih =>
    intro hids hfps hno
    simp only [List.map_cons, List.nodup_cons] at hids hfps
    obtain ⟨hxid, hids2⟩ := hids
    obtain ⟨hxfp, hfps2⟩ := hfps
    simp only [List.map_cons, List.nodup_cons]
    by_cases hx : x.id = i
    · have hxs_id : ∀ r ∈ xs, r.id ≠ i := by
        intro r hr hcon
        apply hxid
        rw [hx, ← hcon]
        exact List.mem_map_of_mem _ hr
      have hxs_same : xs.map (fun r => if r.id = i then (⟨r.id, r.filename, p⟩ : Row) else r)
          = xs := by
        have hcongr : ∀ r ∈ xs,
            (if r.id = i then (⟨r.id, r.filename, p⟩ : Row) else r) = id r := by
          intro r hr
          simp [hxs_id r hr]
        rw [List.map_congr_left hcongr, List.map_id]
      rw [hxs_same]
      constructor
      · rw [if_pos hx]
        intro hmem
        obtain ⟨r, hr, hrp⟩ := List.mem_map.mp hmem
        exact hno r (List.mem_cons_of_mem _ hr) (hxs_id r hr) hrp
      · exact hfps2
    · constructor
      · simp only [if_neg hx]
        intro hmem
        obtain ⟨r, hr0, hrp⟩ := List.mem_map.mp hmem
        obtain ⟨r0, hr1, hr2⟩ := List.mem_map.mp hr0
        by_cases hri : r0.id = i
        · rw [if_pos hri] at hr2
          subst hr2
          simp only at hrp
          exact hno x (List.mem_cons_self _ _) hx hrp.symm
        · rw [if_neg hri] at hr2
          subst hr2
          exact hxfp (hrp ▸ List.mem_map_of_mem _ hr1)
      · exact ih hids2 hfps2 (fun r hr => hno r (List.mem_cons_of_mem _ hr))

/-! ### Claim theorems -/

/-- C1: for every ingestion batch, the reported accepted count equals the
number of records actually created (final row count minus initial row count),
and when no two records share a `storage_path` before the batch, none do
after it, so each newly created record's `storage_path` is unique among all
existing records.  The hypotheses record sqlite's guarantees: row ids start
at 1 and the `UNIQUE` constraint held before the batch. -/
theorem ingestion_count_and_path_uniqueness (st : AppState) (srcs : List SrcFile)
    (h1 : 1 ≤ st.db.next_id) (h2 : st.db.paths.Nodup) :
    (dropEvent st srcs).1.db.paths.Nodup ∧
    (dropEvent st srcs).1.db.rows.length = st.db.rows.length + (dropEvent st srcs).2 := by
  obtain ⟨g1, g2, g3⟩ := drop_fold_spec srcs st 0 h1 h2
  unfold dropEvent
  exact ⟨g2, by omega⟩

theorem ingestion_count_and_path_uniqueness_w :
    (dropEvent ⟨⟨1, []⟩, []⟩ [⟨("/a/x.png").data, Mode.RGB, false⟩]).1.db.paths.Nodup ∧
    (dropEvent ⟨⟨1, []⟩, []⟩ [⟨("/a/x.png").data, Mode.RGB, false⟩]).1.db.rows.length
      = (AppState.mk ⟨1, []⟩ []).db.rows.length
        + (dropEvent ⟨⟨1, []⟩, []⟩ [⟨("/a/x.png").data, Mode.RGB, false⟩]).2 :=
  ingestion_count_and_path_uniqueness ⟨⟨1, []⟩, []⟩
    [⟨("/a/x.png").data, Mode.RGB, false⟩] (by decide) (by decide)

/-- C3: when the bare target name collides with an existing file, `dropEvent`
chooses the candidate with the smallest numeric suffix `i ≥ 1` such that
`base_i.ext` does not exist, trying `1, 2, ...` in order; the search
terminates for every finite directory (the chosen path is always free);
ingestion leaves every pre-existing file untouched; and ingesting two
different files both named `photo.png` into a directory already holding
`photo.png` yields the three distinct files `photo.png` (pre-existing,
untouched), `photo_1.png` and `photo_2.png`. -/
theorem collision_suffix_policy (fs : Fs) (filename : Str)
    (hcoll : fs_exists fs (path_join IMAGES_DIR filename) = true) :
    fs_exists fs (place_target fs filename) = false ∧
    (∃ i, 1 ≤ i ∧ place_target fs filename = cand_seq filename i ∧
      fs_exists fs (cand_seq filename i) = false ∧
      ∀ j, 1 ≤ j → j < i → fs_exists fs (cand_seq filename j) = true) ∧
    (∀ (st : AppState) (count : Nat) (f : SrcFile),
      ∀ x ∈ st.files, x ∈ (drop_one st count f).1.files) ∧
    (dropEvent ⟨⟨1, []⟩, [⟨("stored_images/photo.png").data, Mode.RGB⟩]⟩
        [⟨("/a/photo.png").data, Mode.RGB, false⟩,
         ⟨("/b/photo.png").data, Mode.L, false⟩]).1.files
      = [⟨("stored_images/photo_2.png").data, Mode.L⟩,
         ⟨("stored_images/photo_1.png").data, Mode.RGB⟩,
         ⟨("stored_images/photo.png").data, Mode.RGB⟩] := by
  refine ⟨place_target_free fs filename, ?_, drop_one_preserves_files, by decide⟩
  obtain ⟨k, hk1, hk2, hk3⟩ := place_target_spec fs filename
  have hk0 : k ≠ 0 := by
    intro h0
    subst h0
    rw [show cand_seq filename 0 = path_join IMAGES_DIR filename from rfl, hcoll] at hk2
    exact Bool.noConfusion hk2
  exact ⟨k, by omega, hk1, hk2, fun j hj1 hj2 => hk3 j hj2⟩

theorem collision_suffix_policy_w :
    fs_exists [FsFile.mk (("stored_images/photo.png").data) Mode.RGB]
        (path_join IMAGES_DIR (("photo.png").data)) = true ∧
    fs_exists [FsFile.mk (("stored_images/photo.png").data) Mode.RGB]
        (place_target [FsFile.mk (("stored_images/photo.png").data) Mode.RGB]
          (("photo.png").data)) = false :=
  ⟨by decide,
   (collision_suffix_policy [FsFile.mk (("stored_images/photo.png").data) Mode.RGB]
      (("photo.png").data) (by decide)).1⟩

/-- C2: per-item errors in every batch — ingestion and compression alike —
are captured and reported in the batch result rather than propagated, and
processing continues with the remaining items.  For compression: a decode
failure yields a recorded `DecodeFailed` with an unchanged state, a
`UNIQUE`-rejected path update yields a recorded `UpdateFailed` with the
store unchanged, and `attempted` always equals the number of records in the
snapshot taken at the start of the batch.  For ingestion: every file whose
copy raises is reported (with its name) in the batch's warning list while
the state and the counter evolve exactly as in `dropEvent`, and a failing
file leaves the processing of the remaining files — and the whole batch
outcome — exactly as if it had not been present, so one bad file never
aborts the rest.  The closing conjuncts are the specification's
partial-failure scenario: of three records, the second (in processing order)
points at a missing file; the batch reports `attempted = 3`, exactly one
`DecodeFailed` failure, and the other two records' paths updated. -/
theorem batch_failures_captured :
    (∀ (opts : Options) (ef : Nat → Bool) (st : AppState),
      (compress_all_images opts ef st).attempted = st.db.rows.length) ∧
    (∀ (opts : Options) (ef : Nat → Bool) (st : AppState) (r : Row),
      fs_lookup st.files r.filepath = none →
      compress_one opts ef st r = (st, some (r.id, FailReason.DecodeFailed))) ∧
    (∀ (opts : Options) (ef : Nat → Bool) (st : AppState) (r : Row) (m : Mode),
      fs_lookup st.files r.filepath = some m → ef r.id = false →
      r.filepath ≠ new_filepath_for opts.format r.filename →
      update_image_path st.db r.id (new_filepath_for opts.format r.filename) = none →
      (compress_one opts ef st r).1.db = st.db ∧
      (compress_one opts ef st r).2 = some (r.id, FailReason.UpdateFailed)) ∧
    (∀ (st : AppState) (srcs : List SrcFile),
      (dropEvent_report st srcs).2.2
        = (srcs.filter (fun f => f.copy_fails)).map
            (fun f => (basename f.path, IngestError.CopyFailed)) ∧
      (dropEvent_report st srcs).1 = (dropEvent st srcs).1 ∧
      (dropEvent_report st srcs).2.1 = (dropEvent st srcs).2) ∧
    (∀ (st : AppState) (pre post : List SrcFile) (f : SrcFile), f.copy_fails = true →
      dropEvent st (pre ++ f :: post) = dropEvent st (pre ++ post)) ∧
    ((compress_all_images ⟨80, 8, Fmt.JPEG⟩ (fun _ => false)
        ⟨⟨4, [⟨1, ("a.png").data, ("stored_images/a.png").data⟩,
              ⟨2, ("b.png").data, ("stored_images/b.png").data⟩,
              ⟨3, ("c.png").data, ("stored_images/c.png").data⟩]⟩,
          [⟨("stored_images/a.png").data, Mode.RGB⟩,
           ⟨("stored_images/c.png").data, Mode.L⟩]⟩).attempted = 3 ∧
     (compress_all_images ⟨80, 8, Fmt.JPEG⟩ (fun _ => false)
        ⟨⟨4, [⟨1, ("a.png").data, ("stored_images/a.png").data⟩,
              ⟨2, ("b.png").data, ("stored_images/b.png").data⟩,
              ⟨3, ("c.png").data, ("stored_images/c.png").data⟩]⟩,
          [⟨("stored_images/a.png").data, Mode.RGB⟩,
           ⟨("stored_images/c.png").data, Mode.L⟩]⟩).failures
       = [(2, FailReason.DecodeFailed)] ∧
     (compress_all_images ⟨80, 8, Fmt.JPEG⟩ (fun _ => false)
        ⟨⟨4, [⟨1, ("a.png").data, ("stored_images/a.png").data⟩,
              ⟨2, ("b.png").data, ("stored_images/b.png").data⟩,
              ⟨3, ("c.png").data, ("stored_images/c.png").data⟩]⟩,
          [⟨("stored_images/a.png").data, Mode.RGB⟩,
           ⟨("stored_images/c.png").data, Mode.L⟩]⟩).state.db.rows
       = [⟨1, ("a.png").data, ("stored_images/a_compressed.jpeg").data⟩,
          ⟨2, ("b.png").data, ("stored_images/b.png").data⟩,
          ⟨3, ("c.png").data, ("stored_images/c_compressed.jpeg").data⟩]) := by
  refine ⟨?_, ?_, ?_, ?_, ?_, by decide, by decide, by decide⟩
  · intro opts ef st
    simp [compress_all_images, get_all_images_length]
  · intro opts ef st r hdec
    simp [compress_one, hdec]
  · intro opts ef st r m hdec hef hne hupd
    simp only [compress_one, hdec, hef, Bool.false_eq_true, if_neg, if_pos hne, hupd]
    exact ⟨rfl, rfl⟩
  · intro st srcs
    unfold dropEvent_report dropEvent
    obtain ⟨k1, k2, k3⟩ := dropEvent_report_fold srcs st 0 []
    exact ⟨by rw [k3]; simp, k1, k2⟩
  · intro st pre post f hc
    unfold dropEvent
    simp only [List.foldl_append, List.foldl_cons]
    rw [drop_one_copy_fails _ _ _ hc, Prod.mk.eta]

theorem batch_failures_captured_w :
    compress_one ⟨80, 8, Fmt.JPEG⟩ (fun _ => false)
      ⟨⟨2, [⟨1, ("a.png").data, ("stored_images/a.png").data⟩]⟩, []⟩
      ⟨1, ("a.png").data, ("stored_images/a.png").data⟩
      = (⟨⟨2, [⟨1, ("a.png").data, ("stored_images/a.png").data⟩]⟩, []⟩,
         some (1, FailReason.DecodeFailed)) :=
  batch_failures_captured.2.1 ⟨80, 8, Fmt.JPEG⟩ (fun _ => false)
    ⟨⟨2, [⟨1, ("a.png").data, ("stored_images/a.png").data⟩]⟩, []⟩
    ⟨1, ("a.png").data, ("stored_images/a.png").data⟩ (by decide)

/-- C5: per record in a compression batch, a failed encode leaves the whole
state — the record's `storage_path` and the original physical file —
untouched and only records `EncodeFailed`, so the batch continues with the
next record; the best-effort deletion of the original and the repointing of
the record happen only after a successful encode and only when the new path
differs from the original: when the new path equals the original the store
is not written at all, and after a successful encode with a differing path
the original file is removed and the record repointed exactly when the store
accepts the `UPDATE` — if the `UNIQUE` constraint rejects it, that error too
is captured per record with the store unchanged. -/
theorem encode_failure_policy (opts : Options) (ef : Nat → Bool) (st : AppState)
    (r : Row) (m : Mode) (hdec : fs_lookup st.files r.filepath = some m) :
    (ef r.id = true →
      compress_one opts ef st r = (st, some (r.id, FailReason.EncodeFailed))) ∧
    (ef r.id = false → r.filepath = new_filepath_for opts.format r.filename →
      (compress_one opts ef st r).1.db = st.db ∧
      (compress_one opts ef st r).2 = none) ∧
    (ef r.id = false → r.filepath ≠ new_filepath_for opts.format r.filename →
      ∀ db2 : DB,
        update_image_path st.db r.id (new_filepath_for opts.format r.filename) = some db2 →
        (compress_one opts ef st r).1.db = db2 ∧
        fs_exists (compress_one opts ef st r).1.files r.filepath = false ∧
        (compress_one opts ef st r).2 = none) ∧
    (ef r.id = false → r.filepath ≠ new_filepath_for opts.format r.filename →
      update_image_path st.db r.id (new_filepath_for opts.format r.filename) = none →
      (compress_one opts ef st r).1.db = st.db ∧
      fs_exists (compress_one opts ef st r).1.files r.filepath = false ∧
      (compress_one opts ef st r).2 = some (r.id, FailReason.UpdateFailed)) := by
  refine ⟨?_, ?_, ?_, ?_⟩
  · intro hef
    simp [compress_one, hdec, hef]
  · intro hef heq
    have hne : ¬ (r.filepath ≠ new_filepath_for opts.format r.filename) := by
      simp [heq]
    simp only [compress_one, hdec, hef, Bool.false_eq_true, if_neg hne]
    exact ⟨rfl, rfl⟩
  · intro hef hne db2 hupd
    simp only [compress_one, hdec, hef, Bool.false_eq_true, if_neg, if_pos hne, hupd]
    exact ⟨rfl, fs_exists_remove_self _ _, rfl⟩
  · intro hef hne hupd
    simp only [compress_one, hdec, hef, Bool.false_eq_true, if_neg, if_pos hne, hupd]
    exact ⟨rfl, fs_exists_remove_self _ _, rfl⟩

theorem encode_failure_policy_w :
    compress_one ⟨80, 8, Fmt.JPEG⟩ (fun _ => true)
      ⟨⟨2, [⟨1, ("a.png").data, ("stored_images/a.png").data⟩]⟩,
        [⟨("stored_images/a.png").data, Mode.RGB⟩]⟩
      ⟨1, ("a.png").data, ("stored_images/a.png").data⟩
      = (⟨⟨2, [⟨1, ("a.png").data, ("stored_images/a.png").data⟩]⟩,
          [⟨("stored_images/a.png").data, Mode.RGB⟩]⟩,
         some (1, FailReason.EncodeFailed)) :=
  (encode_failure_policy ⟨80, 8, Fmt.JPEG⟩ (fun _ => true)
    ⟨⟨2, [⟨1, ("a.png").data, ("stored_images/a.png").data⟩]⟩,
      [⟨("stored_images/a.png").data, Mode.RGB⟩]⟩
    ⟨1, ("a.png").data, ("stored_images/a.png").data⟩ Mode.RGB (by decide)).1 (by decide)

/-- C9: the encode parameters depend only on the format — JPEG carries the
configured quality together with `optimize=True` (maximal compression
effort), WEBP carries the quality together with `method=6` (the highest
compression-method effort), while PNG and BMP pass no parameters at all and
so ignore the quality — and a successful encode writes the converted image at
the managed storage directory joined with the original base name, the fixed
suffix `_compressed`, and the new format's lowercased extension. -/
theorem encode_params_by_format :
    (∀ q, save_kwargs_for Fmt.JPEG q = ⟨some q, true, none⟩) ∧
    (∀ q, save_kwargs_for Fmt.WEBP q = ⟨some q, false, some 6⟩) ∧
    (∀ q q2, save_kwargs_for Fmt.PNG q = ⟨none, false, none⟩ ∧
      save_kwargs_for Fmt.PNG q = save_kwargs_for Fmt.PNG q2) ∧
    (∀ q q2, save_kwargs_for Fmt.BMP q = ⟨none, false, none⟩ ∧
      save_kwargs_for Fmt.BMP q = save_kwargs_for Fmt.BMP q2) ∧
    (∀ (opts : Options) (ef : Nat → Bool) (st : AppState) (r : Row) (m : Mode),
      fs_lookup st.files r.filepath = some m → ef r.id = false →
      fs_lookup (compress_one opts ef st r).1.files
          (path_join IMAGES_DIR
            ((splitext r.filename).1 ++ ("_compressed.").data ++ opts.format.lower))
        = some (convert_depth opts.bit_depth m)) := by
  refine ⟨fun q => rfl, fun q => rfl, fun q q2 => ⟨rfl, rfl⟩, fun q q2 => ⟨rfl, rfl⟩, ?_⟩
  intro opts ef st r m hdec hef
  have hpath : path_join IMAGES_DIR
      ((splitext r.filename).1 ++ ("_compressed.").data ++ opts.format.lower)
      = new_filepath_for opts.format r.filename := rfl
  rw [hpath]
  by_cases hne : r.filepath ≠ new_filepath_for opts.format r.filename
  · cases hupd : update_image_path st.db r.id (new_filepath_for opts.format r.filename) with
    | none =>
      simp only [compress_one, hdec, hef, Bool.false_eq_true, if_neg, if_pos hne, hupd]
      exact fs_lookup_after_swap st.files r.filepath _ _ hne
    | some db2 =>
      simp only [compress_one, hdec, hef, Bool.false_eq_true, if_neg, if_pos hne, hupd]
      exact fs_lookup_after_swap st.files r.filepath _ _ hne
  · simp only [compress_one, hdec, hef, Bool.false_eq_true, if_neg hne]
    simp [fs_lookup, fs_write, List.find?]

theorem encode_params_by_format_w :
    fs_lookup (compress_one ⟨80, 8, Fmt.JPEG⟩ (fun _ => false)
        ⟨⟨2, [⟨1, ("a.png").data, ("stored_images/a.png").data⟩]⟩,
          [⟨("stored_images/a.png").data, Mode.RGB⟩]⟩
        ⟨1, ("a.png").data, ("stored_images/a.png").data⟩).1.files
      (path_join IMAGES_DIR
        ((splitext (("a.png").data)).1 ++ ("_compressed.").data ++ Fmt.JPEG.lower))
      = some (convert_depth 8 Mode.RGB) :=
  encode_params_by_format.2.2.2.2 ⟨80, 8, Fmt.JPEG⟩ (fun _ => false)
    ⟨⟨2, [⟨1, ("a.png").data, ("stored_images/a.png").data⟩]⟩,
      [⟨("stored_images/a.png").data, Mode.RGB⟩]⟩
    ⟨1, ("a.png").data, ("stored_images/a.png").data⟩ Mode.RGB (by decide) (by decide)

/-- C4 counterexample: a CMYK source carries multi-channel color information
(four color channels), yet the 8-bit conversion turns it into single-channel
grayscale `L` rather than 3-channel color, because the code tests the mode
against the literals `RGB` and `RGBA` only. -/
theorem bit_depth8_color_cex :
    multi_channel_color Mode.CMYK = true ∧
    convert_depth 8 Mode.CMYK = Mode.L ∧
    Mode.L.channels = 1 ∧ Mode.L.has_color = false ∧ Mode.CMYK.channels = 4 := by
  decide

/-- C4 amended: at `bit_depth = 8`, exactly the sources whose mode is RGB or
RGBA are converted to 3-channel RGB color; every other source — including
multi-channel color modes such as CMYK or YCbCr — is converted to
single-channel grayscale `L`.  In particular a 3-channel RGB source stays
3-channel color and a single-channel source becomes single-channel
grayscale. -/
theorem bit_depth8_policy (m : Mode) :
    (m = Mode.RGB ∨ m = Mode.RGBA →
      convert_depth 8 m = Mode.RGB ∧ (convert_depth 8 m).channels = 3 ∧
      (convert_depth 8 m).has_color = true) ∧
    (m ≠ Mode.RGB → m ≠ Mode.RGBA →
      convert_depth 8 m = Mode.L ∧ (convert_depth 8 m).channels = 1 ∧
      (convert_depth 8 m).has_color = false) := by
  cases m <;> decide

theorem bit_depth8_policy_w :
    (convert_depth 8 Mode.RGB = Mode.RGB ∧ (convert_depth 8 Mode.RGB).channels = 3 ∧
      (convert_depth 8 Mode.RGB).has_color = true) ∧
    (convert_depth 8 Mode.L = Mode.L ∧ (convert_depth 8 Mode.L).channels = 1 ∧
      (convert_depth 8 Mode.L).has_color = false) :=
  ⟨(bit_depth8_policy Mode.RGB).1 (Or.inl rfl),
   (bit_depth8_policy Mode.L).2 (by decide) (by decide)⟩

/-- C6 counterexample: `update_image_path` with an id absent from the store
returns normally (`some`, no raised error) with the store unchanged — an
sqlite `UPDATE` matching no row raises nothing — and likewise
`delete_image`; neither fails with `NotFound` as claimed. -/
theorem unknown_id_noop_cex :
    update_image_path ⟨2, [⟨1, ("a.png").data, ("stored_images/a.png").data⟩]⟩ 7
        (("x").data)
      = some ⟨2, [⟨1, ("a.png").data, ("stored_images/a.png").data⟩]⟩ ∧
    delete_image ⟨2, [⟨1, ("a.png").data, ("stored_images/a.png").data⟩]⟩ 7
      = ⟨2, [⟨1, ("a.png").data, ("stored_images/a.png").data⟩]⟩ := by
  decide

/-- C6 amended: `update_image_path` called with an id not present in the
store is a silent no-op (no error is signalled, nothing is mutated), as is
`delete_image` with an unknown id; and deletion never touches the storage
directory. -/
theorem unknown_id_operations (db : DB) (i : Nat) (p : Str)
    (h : ∀ r ∈ db.rows, r.id ≠ i) :
    update_image_path db i p = some db ∧ delete_image db i = db ∧
    (∀ st : DB × Fs, (delete_image_app st i).2 = st.2) := by
  refine ⟨?_, ?_, fun st => rfl⟩
  · cases db with
    | mk nid rows =>
      have hmatched : (rows.any (fun r => decide (r.id = i))) = false := by
        rw [List.any_eq_false]
        intro r hr
        simp [h r hr]
      have hcond : ¬ (((rows.any (fun r => decide (r.id = i)))
          && (rows.any (fun r => decide (r.id ≠ i) && decide (r.filepath = p)))) = true) := by
        intro hcon
        rw [Bool.and_eq_true] at hcon
        rw [hmatched] at hcon
        exact Bool.noConfusion hcon.1
      simp only [update_image_path]
      rw [if_neg hcond]
      simp only [Option.some.injEq, DB.mk.injEq, true_and]
      have hcongr : ∀ r ∈ rows,
          (if r.id = i then (⟨r.id, r.filename, p⟩ : Row) else r) = id r := by
        intro r hr
        simp [h r hr]
      rw [List.map_congr_left hcongr, List.map_id]
  · cases db with
    | mk nid rows =>
      simp only [delete_image, DB.mk.injEq, true_and]
      apply List.filter_eq_self.mpr
      intro r hr
      simp [h r hr]

theorem unknown_id_operations_w :
    update_image_path ⟨2, [⟨1, ("a.png").data, ("stored_images/a.png").data⟩]⟩ 7
        (("x").data)
      = some ⟨2, [⟨1, ("a.png").data, ("stored_images/a.png").data⟩]⟩ ∧
    delete_image ⟨2, [⟨1, ("a.png").data, ("stored_images/a.png").data⟩]⟩ 7
      = ⟨2, [⟨1, ("a.png").data, ("stored_images/a.png").data⟩]⟩ ∧
    (∀ st : DB × Fs, (delete_image_app st 7).2 = st.2) :=
  unknown_id_operations ⟨2, [⟨1, ("a.png").data, ("stored_images/a.png").data⟩]⟩ 7
    (("x").data) (by decide)

/-- C7 counterexample: repointing one existing record at another existing
record's `storage_path` does not "succeed silently" — the `UPDATE` hits the
table's `UNIQUE` constraint on `filepath` and `sqlite3.IntegrityError`
propagates out of `update_image_path` (the call yields no updated store at
all), so the store is never left with two records sharing a path. -/
theorem update_unique_violation_cex :
    update_image_path
        ⟨3, [⟨1, ("a.png").data, ("stored_images/a.png").data⟩,
             ⟨2, ("b.png").data, ("stored_images/b.png").data⟩]⟩ 1
        (("stored_images/b.png").data) = none := by
  decide

/-- C7 amended: the `update_image_path` method itself performs no uniqueness
check of `new_storage_path` against other records, but the store's `UNIQUE`
constraint rejects the colliding `UPDATE`: calling it on one of two existing
records with the other's `storage_path` raises out of the call instead of
succeeding silently, and any update the store does accept preserves the
uniqueness invariant (given the primary-key uniqueness of ids), so the
invariant is never corrupted. -/
theorem update_path_unique_constraint (db : DB) (r1 r2 : Row)
    (h1 : r1 ∈ db.rows) (h2 : r2 ∈ db.rows) (hne : r1.id ≠ r2.id) :
    update_image_path db r1.id r2.filepath = none ∧
    (∀ (i : Nat) (p : Str) (db2 : DB),
      (db.rows.map (fun r => r.id)).Nodup → db.paths.Nodup →
      update_image_path db i p = some db2 → db2.paths.Nodup) := by
  constructor
  · have hb : ((db.rows.any (fun r => decide (r.id = r1.id)))
        && (db.rows.any (fun r => decide (r.id ≠ r1.id)
              && decide (r.filepath = r2.filepath)))) = true := by
      rw [Bool.and_eq_true]
      constructor
      · rw [List.any_eq_true]
        exact ⟨r1, h1, by simp⟩
      · rw [List.any_eq_true]
        exact ⟨r2, h2, by simp [Ne.symm hne]⟩
    simp only [update_image_path]
    rw [if_pos hb]
  · intro i p db2 hids hpaths hupd
    simp only [update_image_path] at hupd
    by_cases hcond : ((db.rows.any (fun r => decide (r.id = i)))
        && (db.rows.any (fun r => decide (r.id ≠ i) && decide (r.filepath = p)))) = true
    · rw [if_pos hcond] at hupd
      exact Option.noConfusion hupd
    · rw [if_neg hcond] at hupd
      have hdb2 := Option.some.inj hupd
      rw [Bool.and_eq_true] at hcond
      push_neg at hcond
      subst hdb2
      simp only [DB.paths]
      by_cases hmatched : (db.rows.any (fun r => decide (r.id = i))) = true
      · have hcollide : (db.rows.any (fun r => decide (r.id ≠ i)
            && decide (r.filepath = p))) = false := by
          cases hx : (db.rows.any (fun r => decide (r.id ≠ i) && decide (r.filepath = p)))
          · rfl
          · exact absurd hx (hcond hmatched)
        have hno : ∀ r ∈ db.rows, r.id ≠ i → r.filepath ≠ p := by
          intro r hr hrid hrp
          rw [List.any_eq_false] at hcollide
          have hthis := hcollide r hr
          simp [hrid, hrp] at hthis
        exact update_rows_nodup i p db.rows hids hpaths hno
      · have hnom : ∀ r ∈ db.rows, r.id ≠ i := by
          intro r hr hcon
          apply hmatched
          rw [List.any_eq_true]
          exact ⟨r, hr, by simp [hcon]⟩
        have hcongr : ∀ r ∈ db.rows,
            (if r.id = i then (⟨r.id, r.filename, p⟩ : Row) else r) = id r := by
          intro r hr
          simp [hnom r hr]
        rw [List.map_congr_left hcongr, List.map_id]
        exact hpaths

theorem update_path_unique_constraint_w :
    update_image_path
        ⟨3, [⟨1, ("a.png").data, ("stored_images/a.png").data⟩,
             ⟨2, ("b.png").data, ("stored_images/b.png").data⟩]⟩ 2
        (("stored_images/a.png").data) = none :=
  (update_path_unique_constraint
    ⟨3, [⟨1, ("a.png").data, ("stored_images/a.png").data⟩,
         ⟨2, ("b.png").data, ("stored_images/b.png").data⟩]⟩
    ⟨2, ("b.png").data, ("stored_images/b.png").data⟩
    ⟨1, ("a.png").data, ("stored_images/a.png").data⟩
    (by decide) (by decide) (by decide)).1

/-- C8 counterexample: when `add_image` fails on a duplicate `storage_path`
during ingestion (possible when a recorded file was removed from disk
out-of-band), the copied file is kept on disk and the batch does not count it
— but the claim's parenthetical "no record pointing to it" is false: the
duplicate failure means precisely that an existing record points at that very
path, as the final conjunct shows. -/
theorem duplicate_path_cex :
    (drop_one ⟨⟨2, [⟨1, ("photo.png").data, ("stored_images/photo.png").data⟩]⟩, []⟩ 0
        ⟨("/src/photo.png").data, Mode.RGB, false⟩).2 = 0 ∧
    (drop_one ⟨⟨2, [⟨1, ("photo.png").data, ("stored_images/photo.png").data⟩]⟩, []⟩ 0
        ⟨("/src/photo.png").data, Mode.RGB, false⟩).1.db
      = ⟨2, [⟨1, ("photo.png").data, ("stored_images/photo.png").data⟩]⟩ ∧
    fs_exists (drop_one ⟨⟨2, [⟨1, ("photo.png").data,
          ("stored_images/photo.png").data⟩]⟩, []⟩ 0
        ⟨("/src/photo.png").data, Mode.RGB, false⟩).1.files
      (("stored_images/photo.png").data) = true ∧
    (("stored_images/photo.png").data)
      ∈ (drop_one ⟨⟨2, [⟨1, ("photo.png").data, ("stored_images/photo.png").data⟩]⟩, []⟩ 0
          ⟨("/src/photo.png").data, Mode.RGB, false⟩).1.db.paths := by
  decide

/-- C8 amended: when `add_image` is called with a `storage_path` already
present among the records it fails signalling the duplicate (returns `None`)
with no mutation of the store; in that case the ingestion step does not count
the file as accepted and does not roll back the physical copy just made —
the copied file stays on disk, now referred to by the pre-existing record
that owns that path, while no new record is created for it. -/
theorem duplicate_path_no_rollback (db : DB) (fname fpath : Str)
    (hdup : fpath ∈ db.paths) :
    add_image db fname fpath = (none, db) ∧
    (∀ (files : Fs) (count : Nat) (f : SrcFile), f.copy_fails = false →
      place_target files (basename f.path) ∈ db.paths →
      drop_one ⟨db, files⟩ count f
        = (⟨db, fs_write files (place_target files (basename f.path)) f.mode⟩, count)) := by
  constructor
  · simp [add_image, hdup]
  · intro files count f hc hp
    have hc2 : ¬ (f.copy_fails = true) := by simp [hc]
    simp [drop_one, if_neg hc2, add_image, hp]

theorem duplicate_path_no_rollback_w :
    add_image ⟨2, [⟨1, ("photo.png").data, ("stored_images/photo.png").data⟩]⟩
        (("photo.png").data) (("stored_images/photo.png").data)
      = (none, ⟨2, [⟨1, ("photo.png").data, ("stored_images/photo.png").data⟩]⟩) :=
  (duplicate_path_no_rollback
    ⟨2, [⟨1, ("photo.png").data, ("stored_images/photo.png").data⟩]⟩
    (("photo.png").data) (("stored_images/photo.png").data) (by decide)).1

/-- C10 counterexample: at the very pair the claim describes — records
`photo.png` and `photo.bmp`, whose display names share the base `photo` —
path uniqueness IS preserved by `compress_all_images`: the second-processed
record's colliding `UPDATE` hits the `UNIQUE` constraint,
`sqlite3.IntegrityError` is caught by the per-record handler as a failure,
and the record paths stay distinct (and the failure list is not empty),
refuting the claim's conclusion that uniqueness is not preserved. -/
theorem compress_collision_cex :
    (DB.paths ⟨3, [⟨1, ("photo.png").data, ("stored_images/photo.png").data⟩,
                   ⟨2, ("photo.bmp").data, ("stored_images/photo.bmp").data⟩]⟩).Nodup ∧
    (compress_all_images ⟨80, 8, Fmt.JPEG⟩ (fun _ => false)
        ⟨⟨3, [⟨1, ("photo.png").data, ("stored_images/photo.png").data⟩,
              ⟨2, ("photo.bmp").data, ("stored_images/photo.bmp").data⟩]⟩,
          [⟨("stored_images/photo.png").data, Mode.RGB⟩,
           ⟨("stored_images/photo.bmp").data, Mode.L⟩]⟩).state.db.paths.Nodup ∧
    (compress_all_images ⟨80, 8, Fmt.JPEG⟩ (fun _ => false)
        ⟨⟨3, [⟨1, ("photo.png").data, ("stored_images/photo.png").data⟩,
              ⟨2, ("photo.bmp").data, ("stored_images/photo.bmp").data⟩]⟩,
          [⟨("stored_images/photo.png").data, Mode.RGB⟩,
           ⟨("stored_images/photo.bmp").data, Mode.L⟩]⟩).failures ≠ [] := by
  decide

/-- C10 amended: `compress_all_images` applies no collision avoidance to
output names: the records `photo.png` and `photo.bmp` get the identical
output path `stored_images/photo_compressed.jpeg`.  The second-processed
record's encode overwrites the file just written for the first (the
surviving file holds the second's pixels, mode RGB of the id-1 record, since
the snapshot is ordered by id descending), its original file is deleted, and
its path update targets a `storage_path` already held by the other record —
that update hits the `UNIQUE` constraint and is recorded as a per-record
failure, so the store keeps distinct paths while the failing record is left
pointing at its already-deleted original file. -/
theorem compress_all_output_collision :
    new_filepath_for Fmt.JPEG (("photo.png").data)
      = new_filepath_for Fmt.JPEG (("photo.bmp").data) ∧
    (compress_all_images ⟨80, 8, Fmt.JPEG⟩ (fun _ => false)
        ⟨⟨3, [⟨1, ("photo.png").data, ("stored_images/photo.png").data⟩,
              ⟨2, ("photo.bmp").data, ("stored_images/photo.bmp").data⟩]⟩,
          [⟨("stored_images/photo.png").data, Mode.RGB⟩,
           ⟨("stored_images/photo.bmp").data, Mode.L⟩]⟩).state.db.rows
      = [⟨1, ("photo.png").data, ("stored_images/photo.png").data⟩,
         ⟨2, ("photo.bmp").data, ("stored_images/photo_compressed.jpeg").data⟩] ∧
    fs_lookup (compress_all_images ⟨80, 8, Fmt.JPEG⟩ (fun _ => false)
        ⟨⟨3, [⟨1, ("photo.png").data, ("stored_images/photo.png").data⟩,
              ⟨2, ("photo.bmp").data, ("stored_images/photo.bmp").data⟩]⟩,
          [⟨("stored_images/photo.png").data, Mode.RGB⟩,
           ⟨("stored_images/photo.bmp").data, Mode.L⟩]⟩).state.files
      (("stored_images/photo_compressed.jpeg").data) = some Mode.RGB ∧
    fs_exists (compress_all_images ⟨80, 8, Fmt.JPEG⟩ (fun _ => false)
        ⟨⟨3, [⟨1, ("photo.png").data, ("stored_images/photo.png").data⟩,
              ⟨2, ("photo.bmp").data, ("stored_images/photo.bmp").data⟩]⟩,
          [⟨("stored_images/photo.png").data, Mode.RGB⟩,
           ⟨("stored_images/photo.bmp").data, Mode.L⟩]⟩).state.files
      (("stored_images/photo.png").data) = false ∧
    (compress_all_images ⟨80, 8, Fmt.JPEG⟩ (fun _ => false)
        ⟨⟨3, [⟨1, ("photo.png").data, ("stored_images/photo.png").data⟩,
              ⟨2, ("photo.bmp").data, ("stored_images/photo.bmp").data⟩]⟩,
          [⟨("stored_images/photo.png").data, Mode.RGB⟩,
           ⟨("stored_images/photo.bmp").data, Mode.L⟩]⟩).failures
      = [(1, FailReason.UpdateFailed)] := by
  decide

end Bildkompressor
